import Mathlib

/-!
Shallow embedding of `VAE1D.py` (a 1-D convolutional variational
autoencoder, its ELBO loss module, and a dataset loader for "transient"
time-series samples), together with theorems checking the natural-language
specification against this embedding.

Modelling conventions:
* tensor shapes are lists of dimension sizes, e.g. `[batch, channels, len]`;
* a convolution layer is modelled by its shape action, using the PyTorch
  `Conv1d` / `ConvTranspose1d` length formulas with `dilation = 1` and
  `output_padding = 0`; layers that never change shapes (`ReLU`,
  `BatchNorm1d`, `Tanh`) are omitted from the shape pipeline;
* real-valued tensor mathematics is modelled elementwise over `ℝ`, with the
  random draw of `torch.randn_like` supplied as an explicit argument;
* Python runtime failures (assertion errors, `TypeError`, `NameError`,
  `UnboundLocalError`, `IndexError`) are modelled with `Option`/`Except`.
-/

/-- Module-level hyperparameter `depth = 64` of `VAE1D.py` (line 18):
initial depth to convolve channels into. -/
def depth : Nat := 64

/-- Module-level hyperparameter `filt_size = 4` (line 19): convolution
filter size. -/
def filt_size : Nat := 4

/-- Module-level hyperparameter `stride = 2` (line 20). -/
def stride : Nat := 2

/-- Module-level hyperparameter `pad = 1` (line 21). -/
def pad : Nat := 1

/-- Fuel-driven exact base-2 logarithm: given enough fuel it returns
`some k` exactly when the argument is `2 ^ k`, and `none` otherwise.
This models `n = math.log2(size)` together with the check
`assert n == round(n)` in `VAE1D.__init__` (lines 31-32): the float
`log2` of a positive integer is an integer exactly when the integer is a
power of two, and `math.log2(0)` raises a domain error. -/
def log2ExactAux : Nat → Nat → Option Nat
  | 0, _ => none
  | fuel + 1, m =>
    if m = 1 then some 0
    else if m % 2 = 0 ∧ m ≠ 0 then (log2ExactAux fuel (m / 2)).map (· + 1)
    else none

/-- `log2Exact m = some k` iff `m = 2 ^ k` (fuel `m` is always enough). -/
def log2Exact (m : Nat) : Option Nat := log2ExactAux m m

/-- Shape-relevant data of a `nn.Conv1d` / `nn.ConvTranspose1d` layer:
in-channels, out-channels, kernel size, stride, padding. -/
structure ConvSpec where
  inC : Nat
  outC : Nat
  k : Nat
  s : Nat
  p : Nat
deriving DecidableEq

/-- Shape action of `nn.Conv1d` on a batched input `[b, ch, l]`:
`out_len = (l + 2p - k) / s + 1` (floor), defined when the channel count
matches and the output length is positive (`k ≤ l + 2p`), as PyTorch
raises otherwise. -/
def applyConv1d (c : ConvSpec) (sh : List Nat) : Option (List Nat) :=
  match sh with
  | [b, ch, l] =>
    if ch = c.inC ∧ c.k ≤ l + 2 * c.p then
      some [b, c.outC, (l + 2 * c.p - c.k) / c.s + 1]
    else none
  | _ => none

/-- Shape action of `nn.ConvTranspose1d` on a batched input `[b, ch, l]`:
`out_len = (l - 1) * s + k - 2p`, defined when the channel count matches,
the input length is positive and the output length is positive. -/
def applyConvT1d (c : ConvSpec) (sh : List Nat) : Option (List Nat) :=
  match sh with
  | [b, ch, l] =>
    if ch = c.inC ∧ 1 ≤ l ∧ 2 * c.p + 1 ≤ (l - 1) * c.s + c.k then
      some [b, c.outC, (l - 1) * c.s + c.k - 2 * c.p]
    else none
  | _ => none

/-- Apply a sequence of `Conv1d` layers in order (the shape action of an
encoder-side `nn.Sequential`; shape-preserving layers are dropped). -/
def runConvs : List ConvSpec → List Nat → Option (List Nat)
  | [], sh => some sh
  | c :: l, sh => (applyConv1d c sh).bind (runConvs l)

/-- Apply a sequence of `ConvTranspose1d` layers in order (the shape
action of the decoder `nn.Sequential`). -/
def runConvTs : List ConvSpec → List Nat → Option (List Nat)
  | [], sh => some sh
  | c :: l, sh => (applyConvT1d c sh).bind (runConvTs l)

/-- Shape action of `tensor.squeeze(-1)`: drop the last dimension when it
has size 1, otherwise leave the shape unchanged. -/
def squeezeNeg1 (sh : List Nat) : List Nat :=
  match sh.getLast? with
  | some 1 => sh.dropLast
  | _ => sh

/-- The data determining a constructed `VAE1D` module: the constructor
arguments plus `n = int(math.log2(size))` (line 34), from which every
layer of the network is derived. -/
structure VAE1D where
  size : Nat
  n_channels : Nat
  n_latent : Nat
  n : Nat
deriving DecidableEq

/-- `VAE1D.__init__(size, n_channels, n_latent)` (lines 25-34): succeeds
exactly when `log2(size)` is an integer (`size` a power of two) of value
at least 3 (`size ≥ 8`); both asserts failing means no module is built. -/
def VAE1D.init (size n_channels n_latent : Nat) : Option VAE1D :=
  match log2Exact size with
  | none => none
  | some n => if 3 ≤ n then some ⟨size, n_channels, n_latent, n⟩ else none

/-- Stage `i` of the encoder pyramid loop (lines 50-61):
`Conv1d(depth * 2^i, depth * 2^(i+1), filt_size, stride, pad)`. -/
def encStage (i : Nat) : ConvSpec :=
  ⟨depth * 2 ^ i, depth * 2 ^ (i + 1), filt_size, stride, pad⟩

/-- The convolution layers of `self.encoder` (lines 38-61): the input
convolution `Conv1d(n_channels, depth, filt_size, stride, pad)` followed
by the pyramid stages `for i in range(n - 3)`. -/
def VAE1D.encoderConvs (m : VAE1D) : List ConvSpec :=
  ⟨m.n_channels, depth, filt_size, stride, pad⟩ ::
    (List.range (m.n - 3)).map encStage

/-- `max_depth = depth * 2 ** (n - 3)` (line 66). -/
def VAE1D.max_depth (m : VAE1D) : Nat := depth * 2 ^ (m.n - 3)

/-- `self.conv_mu = nn.Conv1d(max_depth, n_latent, filt_size)` (line 67);
PyTorch defaults give stride 1 and padding 0. -/
def VAE1D.convMu (m : VAE1D) : ConvSpec :=
  ⟨m.max_depth, m.n_latent, filt_size, 1, 0⟩

/-- `self.conv_logvar = nn.Conv1d(max_depth, n_latent, filt_size)`
(line 68). -/
def VAE1D.convLogvar (m : VAE1D) : ConvSpec :=
  ⟨m.max_depth, m.n_latent, filt_size, 1, 0⟩

/-- Stage `i` of the decoder pyramid loop (lines 82-89):
`ConvTranspose1d(depth * 2^i, depth * 2^(i-1), filt_size, stride, pad)`. -/
def decStage (i : Nat) : ConvSpec :=
  ⟨depth * 2 ^ i, depth * 2 ^ (i - 1), filt_size, stride, pad⟩

/-- The decoder pyramid stages in the order the source builds them:
`for i in range(n - 3, 0, -1)` enumerates `i = t, t-1, ..., 1` where
`t = n - 3`; entry `j` of the list is stage `t - j`. -/
def decList (t : Nat) : List ConvSpec :=
  (List.range t).map (fun j => decStage (t - j))

/-- The convolution layers of `self.decoder` (lines 73-96): the input
transposed convolution `ConvTranspose1d(n_latent, max_depth, filt_size)`
(stride 1, padding 0 by default), the reversed pyramid, and the output
layer `ConvTranspose1d(depth, n_channels, filt_size, stride, pad)`. -/
def VAE1D.decoderConvs (m : VAE1D) : List ConvSpec :=
  ⟨m.n_latent, m.max_depth, filt_size, 1, 0⟩ ::
    (decList (m.n - 3) ++ [⟨depth, m.n_channels, filt_size, stride, pad⟩])

/-- Shape of `self.encoder(trans)` (line 119) on a batch of `b` samples of
shape `(n_channels, size)`. -/
def VAE1D.encoderShape (m : VAE1D) (b : Nat) : Option (List Nat) :=
  runConvs m.encoderConvs [b, m.n_channels, m.size]

/-- The spatial (last-dimension) size of the encoder output, before the
latent heads `conv_mu` / `conv_logvar` are applied. -/
def VAE1D.encoderSpatial (m : VAE1D) (b : Nat) : Option Nat :=
  (m.encoderShape b).bind List.getLast?

/-- Shape of `self.conv_mu(output)` in `encode` (lines 119-121): the
encoder output is squeezed twice along the last axis and fed to the
`mu` head. -/
def VAE1D.muShape (m : VAE1D) (b : Nat) : Option (List Nat) :=
  (m.encoderShape b).bind
    (fun sh => applyConv1d m.convMu (squeezeNeg1 (squeezeNeg1 sh)))

/-- Shape of `self.conv_logvar(output)` in `encode` (lines 119-121). -/
def VAE1D.logvarShape (m : VAE1D) (b : Nat) : Option (List Nat) :=
  (m.encoderShape b).bind
    (fun sh => applyConv1d m.convLogvar (squeezeNeg1 (squeezeNeg1 sh)))

/-- Shapes of the pair `[mu, logvar]` returned by `encode` (line 121). -/
def VAE1D.encodeShape (m : VAE1D) (b : Nat) : Option (List Nat × List Nat) :=
  (m.muShape b).bind (fun a => (m.logvarShape b).map (fun c => (a, c)))

/-- Shape action of `generate(mu, logvar)` (lines 123-132):
`std = exp(0.5 * logvar)` has `logvar`'s shape, `randn_like(std)` matches
it, and `gen.mul(std).add_(mu)` needs the shapes to agree elementwise. -/
def generateShape (muSh lvSh : List Nat) : Option (List Nat) :=
  if muSh = lvSh then some lvSh else none

/-- Shape of `self.decoder(gen)` (line 140). -/
def VAE1D.decodeShape (m : VAE1D) (sh : List Nat) : Option (List Nat) :=
  runConvTs m.decoderConvs sh

/-- Shape of `decode(generate(encode(x)))` on a batch of `b` inputs. -/
def VAE1D.roundtripShape (m : VAE1D) (b : Nat) : Option (List Nat) :=
  (m.encodeShape b).bind
    (fun p => (generateShape p.1 p.2).bind (fun g => m.decodeShape g))

/-- Elementwise values of `VAE1D.generate(mu, logvar)` (lines 123-132):
`std = torch.exp(0.5 * logvar)`, `gen = torch.randn_like(std)` (the drawn
noise values supplied as `eps`), result `gen.mul(std).add_(mu)`. -/
noncomputable def VAE1D.generate (mu logvar eps : List ℝ) : List ℝ :=
  let std := logvar.map (fun v => Real.exp ((0.5 : ℝ) * v))
  List.zipWith (fun a b => a + b) (List.zipWith (fun a b => a * b) eps std) mu

/-- `VAE1D.forward` (lines 142-154): the method binds its argument as
`imgs`, but its first statement is `mu, logvar = self.encode(trans)`;
`trans` is neither a parameter nor a module-level name in `VAE1D.py`, so
every call raises `NameError` before any computation happens. -/
def VAE1D.forward (m : VAE1D) (imgs : List (List (List ℝ))) :
    Except String (List (List (List ℝ)) × List (List ℝ) × List (List ℝ)) :=
  Except.error "NameError: name trans is not defined"

/-- Per-sample reconstruction error of `VAE1DLoss.forward` (lines 173-175):
`(trans - gen_trans).pow(2)` elementwise over the `(channels, size)`
sample, `.reshape(batch_size, -1)` flattening the non-batch axes, then
`0.5 * torch.sum(..., dim=-1)`. -/
noncomputable def genErrRow (trans gen : List (List ℝ)) : ℝ :=
  (0.5 : ℝ) *
    (((trans.zip gen).map
      (fun c => (c.1.zip c.2).map (fun p => (p.1 - p.2) ^ 2))).flatten).sum

/-- Per-sample KL term of `VAE1DLoss.forward` (lines 182-183):
`KL = (-logvar + logvar.exp() + mu.pow(2) - 1) * 0.5` elementwise over the
latent dimensions, then `torch.sum(KL, dim=-1)`. -/
noncomputable def klRow (mu logvar : List ℝ) : ℝ :=
  ((mu.zip logvar).map
    (fun p => (-p.2 + Real.exp p.2 + p.1 ^ 2 - 1) * (0.5 : ℝ))).sum

/-- The per-sample loss vector returned by `VAE1DLoss.forward` with
`reduce=False` (line 187): `loss = gen_err + self.beta * KL`. -/
noncomputable def lossVec (beta : ℝ) (genT transT : List (List (List ℝ)))
    (mu logvar : List (List ℝ)) : List ℝ :=
  List.zipWith (fun e k => e + beta * k)
    (List.zipWith genErrRow transT genT)
    (List.zipWith klRow mu logvar)

/-- `torch.mean` of a vector. -/
noncomputable def meanR (l : List ℝ) : ℝ := l.sum / (l.length : ℝ)

/-- The scalar loss returned by `VAE1DLoss.forward` with `reduce=True`
(lines 176-187): both terms are batch-averaged before being combined. -/
noncomputable def lossReduced (beta : ℝ) (genT transT : List (List (List ℝ)))
    (mu logvar : List (List ℝ)) : ℝ :=
  meanR (List.zipWith genErrRow transT genT) +
    beta * meanR (List.zipWith klRow mu logvar)

/-- Reconstruction term as worded by the specification: "half the sum of
squared per-element differences between sample and reconstruction, summed
over all non-batch dimensions per sample". -/
noncomputable def reconSpec (sample recon : List (List ℝ)) : ℝ :=
  (0.5 : ℝ) *
    ((sample.zip recon).map
      (fun c => ((c.1.zip c.2).map (fun p => (p.1 - p.2) ^ 2)).sum)).sum

/-- KL term as worded by the specification:
`sum( 0.5 * (exp(logvar) + mu^2 - logvar - 1) )` over latent dimensions. -/
noncomputable def klSpec (mu logvar : List ℝ) : ℝ :=
  ((mu.zip logvar).map
    (fun p => (0.5 : ℝ) * (Real.exp p.2 + p.1 ^ 2 - p.2 - 1))).sum

/-- A tensor value, for the heap model of `generate`. -/
abbrev Tensor := List ℝ

/-- A heap of tensors: references are indices into the cell list; a fresh
tensor is appended at allocation. -/
structure Heap where
  cells : List Tensor

/-- Read the tensor at a reference. -/
def Heap.read (h : Heap) (r : Nat) : Tensor := h.cells.getD r []

/-- Allocate a fresh tensor, returning its reference and the new heap. -/
def Heap.alloc (h : Heap) (t : Tensor) : Nat × Heap :=
  (h.cells.length, ⟨h.cells ++ [t]⟩)

/-- Overwrite the tensor at a reference in place. -/
def Heap.write (h : Heap) (r : Nat) (t : Tensor) : Heap :=
  ⟨h.cells.set r t⟩

/-- Outcome of running `generate` against the heap model: the reference
returned to the caller, the final heap, the reference allocated for the
`torch.randn_like` noise draw, and the references mutated in place
(PyTorch trailing-underscore ops) during the call. -/
structure GenEffect where
  ret : Nat
  heap : Heap
  noise : Nat
  muts : List Nat

/-- Heap semantics of `VAE1D.generate(mu, logvar)` (lines 123-132).
`torch.exp(0.5 * logvar)` allocates the scalar product and the `exp`
result; `torch.randn_like(std)` allocates the noise tensor (values `eps`);
`gen.mul(std)` is out-of-place and allocates the product; `.add_(mu)` is
the single in-place operation, mutating that product tensor. -/
noncomputable def VAE1D.generateEffect (h : Heap) (muR lvR : Nat)
    (eps : Tensor) : GenEffect :=
  let p1 := h.alloc ((h.read lvR).map (fun v => (0.5 : ℝ) * v))
  let p2 := p1.2.alloc ((p1.2.read p1.1).map Real.exp)
  let p3 := p2.2.alloc eps
  let p4 := p3.2.alloc
    (List.zipWith (fun a b => a * b) (p3.2.read p3.1) (p3.2.read p2.1))
  let h5 := p4.2.write p4.1
    (List.zipWith (fun a b => a + b) (p4.2.read p4.1) (p4.2.read muR))
  ⟨p4.1, h5, p3.1, [p4.1]⟩

/-- A dynamically-typed Python value, used where `VAE1D.py` indexes a list
with a value whose type is only known at run time. -/
inductive PyVal where
  | pInt : Int → PyVal
  | pStr : String → PyVal
  | pList : List PyVal → PyVal

/-- Python list indexing by an integer: negative indices count from the
end, out-of-range indices raise `IndexError`. -/
def pyIdx {α : Type} (xs : List α) (i : Int) : Except String α :=
  let j : Int := if i < 0 then i + (xs.length : Int) else i
  if h : 0 ≤ j ∧ j.toNat < xs.length then Except.ok (xs.get ⟨j.toNat, h.2⟩)
  else Except.error "IndexError: list index out of range"

/-- Python list indexing by a dynamically-typed subscript: only integers
are accepted; any other type raises `TypeError`. -/
def pyIdxDyn {α : Type} (xs : List α) (v : PyVal) : Except String α :=
  match v with
  | PyVal.pInt i => pyIdx xs i
  | PyVal.pStr _ =>
    Except.error "TypeError: list indices must be integers or slices, not str"
  | PyVal.pList _ =>
    Except.error "TypeError: list indices must be integers or slices, not list"

/-- `pathlib`'s `/` operator: the right operand must be a string (or
path); joining with a list raises `TypeError`. -/
def pyPathJoin (base : String) (v : PyVal) : Except String String :=
  match v with
  | PyVal.pStr s => Except.ok (base ++ "/" ++ s)
  | _ =>
    Except.error "TypeError: argument should be a str or an os.PathLike object, not list"

/-- Insert a string into an ascending list (helper for `sorted`). -/
def insort (s : String) : List String → List String
  | [] => [s]
  | t :: ts => if s ≤ t then s :: t :: ts else t :: insort s ts

/-- Python's `sorted` on a list of strings, modelled by insertion sort
(ascending lexicographic order). -/
def sortStrings (l : List String) : List String := l.foldr insort []

/-- The state of a constructed `TransientDataset` (lines 191-206):
per-channel normalization statistics and the directory index. Note that
`self.names` and `self.targets` are built with `list.append`, so they are
lists of per-class lists, not flat lists. -/
structure TransientDataset where
  path : String
  mu : List ℝ
  sigma : List ℝ
  classes : List String
  names : List (List String)
  targets : List (List Nat)

/-- `TransientDataset.__init__(data_path, normals)` (lines 193-206):
`normals` is the `(channels, 2)` statistics array, modelled as the list of
its rows `(mean, std)`; `classes = sorted(os.listdir(path))`; for each
class, the file listing is appended to `self.names` and the constant list
`[i] * len(names)` to `self.targets`. The directory contents are supplied
by `listdir`. -/
def TransientDataset.init (data_path : String)
    (listdir : String → List String) (normals : List (ℝ × ℝ)) :
    TransientDataset :=
  let classes := sortStrings (listdir data_path)
  ⟨data_path,
   normals.map Prod.fst,
   normals.map Prod.snd,
   classes,
   classes.map (fun c => listdir (data_path ++ "/" ++ c)),
   classes.enum.map
     (fun ic => List.replicate (listdir (data_path ++ "/" ++ ic.2)).length ic.1)⟩

/-- `TransientDataset.__len__` (lines 208-209): `len(self.names)`.
Because `self.names` holds one list per class, this is the number of
class directories. -/
def TransientDataset.len (d : TransientDataset) : Nat := d.names.length

/-- `TransientDataset.norm(arr)` (lines 223-225): per-channel
`(arr - mu) / sigma` with `mu`, `sigma` column vectors broadcast over each
channel row. -/
noncomputable def TransientDataset.norm (d : TransientDataset)
    (arr : List (List ℝ)) : List (List ℝ) :=
  List.zipWith (fun row p => row.map (fun x => (x - p.1) / p.2))
    arr (d.mu.zip d.sigma)

/-- `TransientDataset.__getitem__(index)` (lines 211-215).
`name = self.names[index]` yields the whole per-class name list,
`target = self.targets[index]` yields the whole per-class label list, and
`self.classes[target]` then subscripts a list with a list, which raises
`TypeError` in Python; the remaining statements (`path / name`,
`np.load`, `self.norm`) are modelled faithfully after it. `load` stands
for `np.load` on the file system. -/
noncomputable def TransientDataset.getItem (d : TransientDataset)
    (load : String → Except String (List (List ℝ))) (index : Int) :
    Except String (List (List ℝ) × PyVal) := do
  let name ← pyIdx d.names index
  let target ← pyIdx d.targets index
  let cls ← pyIdxDyn d.classes (PyVal.pList (target.map PyVal.pInt))
  let fname ← pyPathJoin (d.path ++ "/" ++ cls) (PyVal.pList (name.map PyVal.pStr))
  let arr ← load fname
  Except.ok (d.norm arr, PyVal.pList (target.map PyVal.pInt))

/-- `TransientDataset.index(name)` (lines 217-221): after
`name = str(name)` the body evaluates `index[-4:]`; because `index` is
assigned later in the same function body it is a local variable, unbound
at that read, so every call raises `UnboundLocalError` before consulting
the dataset. -/
def TransientDataset.index (d : TransientDataset) (name : String) :
    Except String Nat :=
  Except.error "UnboundLocalError: local variable index referenced before assignment"

/-- A concrete two-file directory tree used to evaluate the dataset at
explicit inputs: one class directory `a` holding `x.npy` and `y.npy`. -/
def demoListdir : String → List String :=
  fun p =>
    if p = "root" then ["a"]
    else if p = "root/a" then ["x.npy", "y.npy"]
    else []

/-- `encStageList s t` lists the encoder pyramid stages `s, s+1, ...,
s+t-1` (a generalisation of `encoderConvs`'s tail used for induction). -/
def encStageList (s t : Nat) : List ConvSpec :=
  (List.range t).map (fun j => encStage (s + j))

/-! ### Helper lemmas: exact base-2 logarithm -/

theorem log2ExactAux_pow (k : Nat) :
    ∀ fuel, 2 ^ k ≤ fuel → log2ExactAux fuel (2 ^ k) = some k := by
  induction k with
  | zero =>
    intro fuel h
    cases fuel with
    | zero => simp at h
    | succ f => simp [log2ExactAux]
  | succ k ih =>
    intro fuel h
    have hpos : 0 < 2 ^ k := Nat.pos_pow_of_pos k (by norm_num)
    have h2 : 2 ^ (k + 1) = 2 ^ k * 2 := by rw [Nat.pow_succ]
    cases fuel with
    | zero => omega
    | succ f =>
      have hne1 : ¬ (2 ^ (k + 1) = 1) := by omega
      have hmod : 2 ^ (k + 1) % 2 = 0 ∧ 2 ^ (k + 1) ≠ 0 := by
        constructor
        · rw [h2]; exact Nat.mul_mod_left _ _
        · omega
      have hdiv : 2 ^ (k + 1) / 2 = 2 ^ k := by
        rw [h2]; exact Nat.mul_div_cancel _ (by norm_num)
      have hfuel : 2 ^ k ≤ f := by omega
      simp only [log2ExactAux, if_neg hne1, if_pos hmod, hdiv, ih f hfuel]
      rfl

theorem log2ExactAux_sound :
    ∀ fuel m k, log2ExactAux fuel m = some k → m = 2 ^ k := by
  intro fuel
  induction fuel with
  | zero => intro m k h; simp [log2ExactAux] at h
  | succ f ih =>
    intro m k h
    by_cases h1 : m = 1
    · subst h1
      simp [log2ExactAux] at h
      subst h
      norm_num
    · by_cases h2 : m % 2 = 0 ∧ m ≠ 0
      · simp only [log2ExactAux, if_neg h1, if_pos h2, Option.map_eq_some']
          at h
        obtain ⟨k1, hk1, rfl⟩ := h
        have := ih (m / 2) k1 hk1
        have hm : m = 2 * (m / 2) := by omega
        rw [Nat.pow_succ, ← this]
        omega
      · simp [log2ExactAux, h1, h2] at h

theorem log2Exact_pow (k : Nat) : log2Exact (2 ^ k) = some k :=
  log2ExactAux_pow k _ le_rfl

theorem log2Exact_sound {m k : Nat} (h : log2Exact m = some k) : m = 2 ^ k :=
  log2ExactAux_sound _ _ _ h

/-! ### Helper lemmas: construction -/

theorem VAE1D.init_pow (n nCh nL : Nat) (h : 3 ≤ n) :
    VAE1D.init (2 ^ n) nCh nL = some ⟨2 ^ n, nCh, nL, n⟩ := by
  simp [VAE1D.init, log2Exact_pow, h]

theorem VAE1D.init_fail (size nCh nL : Nat)
    (h : (¬ ∃ k, size = 2 ^ k) ∨ size < 8) :
    VAE1D.init size nCh nL = none := by
  cases hE : log2Exact size with
  | none => simp [VAE1D.init, hE]
  | some k =>
    have hsz := log2Exact_sound hE
    cases h with
    | inl h => exact absurd ⟨k, hsz⟩ h
    | inr h =>
      have hk : ¬ 3 ≤ k := by
        intro hk3
        have : 2 ^ 3 ≤ 2 ^ k := Nat.pow_le_pow_right (by norm_num) hk3
        omega
      simp [VAE1D.init, hE, hk]

/-! ### Helper lemmas: encoder shape -/

theorem encStageList_succ (s t : Nat) :
    encStageList s (t + 1) = encStage s :: encStageList (s + 1) t := by
  have hfun : (fun j => encStage (s + Nat.succ j)) =
      (fun j => encStage (s + 1 + j)) := by
    funext j
    congr 1
    omega
  simp only [encStageList, List.range_succ_eq_map, List.map_cons,
    List.map_map, Nat.add_zero, Function.comp_def, hfun]

theorem encStageList_zero_eq (t : Nat) :
    (List.range t).map encStage = encStageList 0 t := by
  simp only [encStageList, Nat.zero_add]

theorem runConvs_encStageList (t : Nat) :
    ∀ s m b, t + 2 ≤ m →
      runConvs (encStageList s t) [b, depth * 2 ^ s, 2 ^ m] =
        some [b, depth * 2 ^ (s + t), 2 ^ (m - t)] := by
  induction t with
  | zero =>
    intro s m b _
    simp [encStageList, runConvs]
  | succ t ih =>
    intro s m b h
    rw [encStageList_succ]
    have hm2 : 2 ^ m = 2 ^ (m - 1) * 2 := by
      rw [← Nat.pow_succ]
      congr 1
      omega
    have hp1 : 0 < 2 ^ (m - 1) := Nat.pos_pow_of_pos _ (by norm_num)
    have hcond : filt_size ≤ 2 ^ m + 2 * pad := by
      simp only [filt_size, pad]
      omega
    have hout : (2 ^ m + 2 * pad - filt_size) / stride + 1 = 2 ^ (m - 1) := by
      simp only [filt_size, pad, stride]
      omega
    simp only [runConvs, encStage, applyConv1d]
    rw [if_pos (And.intro trivial hcond), hout, Option.some_bind]
    have hstep := ih (s + 1) (m - 1) b (by omega)
    rw [hstep]
    have e1 : s + 1 + t = s + (t + 1) := by omega
    have e2 : m - 1 - t = m - (t + 1) := by omega
    rw [e1, e2]

theorem VAE1D.encoderShape_eq (n nCh nL b : Nat) (h : 3 ≤ n) :
    VAE1D.encoderShape ⟨2 ^ n, nCh, nL, n⟩ b =
      some [b, depth * 2 ^ (n - 3), 4] := by
  have hcond : filt_size ≤ 2 ^ n + 2 * pad := by
    have : 2 ^ 3 ≤ 2 ^ n := Nat.pow_le_pow_right (by norm_num) h
    simp only [filt_size, pad]
    omega
  have hout : (2 ^ n + 2 * pad - filt_size) / stride + 1 = 2 ^ (n - 1) := by
    have h8 : 2 ^ 3 ≤ 2 ^ n := Nat.pow_le_pow_right (by norm_num) h
    have hm2 : 2 ^ n = 2 ^ (n - 1) * 2 := by
      rw [← Nat.pow_succ]
      congr 1
      omega
    have hp1 : 0 < 2 ^ (n - 1) := Nat.pos_pow_of_pos _ (by norm_num)
    simp only [filt_size, pad, stride]
    omega
  simp only [VAE1D.encoderShape, VAE1D.encoderConvs, runConvs, applyConv1d,
    encStageList_zero_eq]
  rw [if_pos (And.intro trivial hcond), hout, Option.some_bind]
  have hfold := runConvs_encStageList (n - 3) 0 (n - 1) b (by omega)
  rw [pow_zero, Nat.mul_one] at hfold
  rw [hfold]
  have e1 : 0 + (n - 3) = n - 3 := by omega
  have e2 : n - 1 - (n - 3) = 2 := by omega
  rw [e1, e2]
  norm_num

theorem VAE1D.muShape_eq (n nCh nL b : Nat) (h : 3 ≤ n) :
    VAE1D.muShape ⟨2 ^ n, nCh, nL, n⟩ b = some [b, nL, 1] := by
  rw [VAE1D.muShape, VAE1D.encoderShape_eq n nCh nL b h, Option.some_bind]
  have hsq : squeezeNeg1 [b, depth * 2 ^ (n - 3), 4] =
      [b, depth * 2 ^ (n - 3), 4] := rfl
  rw [hsq, hsq]
  simp only [applyConv1d, VAE1D.convMu, VAE1D.max_depth]
  norm_num [filt_size]

theorem VAE1D.logvarShape_eq (n nCh nL b : Nat) (h : 3 ≤ n) :
    VAE1D.logvarShape ⟨2 ^ n, nCh, nL, n⟩ b = some [b, nL, 1] := by
  rw [VAE1D.logvarShape, VAE1D.encoderShape_eq n nCh nL b h, Option.some_bind]
  have hsq : squeezeNeg1 [b, depth * 2 ^ (n - 3), 4] =
      [b, depth * 2 ^ (n - 3), 4] := rfl
  rw [hsq, hsq]
  simp only [applyConv1d, VAE1D.convLogvar, VAE1D.max_depth]
  norm_num [filt_size]

/-! ### Helper lemmas: decoder shape -/

theorem decList_succ (t : Nat) :
    decList (t + 1) = decStage (t + 1) :: decList t := by
  have hfun : (fun j => decStage (t + 1 - Nat.succ j)) =
      (fun j => decStage (t - j)) := by
    funext j
    congr 1
    omega
  simp only [decList, List.range_succ_eq_map, List.map_cons, List.map_map,
    Nat.sub_zero, Function.comp_def, hfun]

theorem runConvTs_append (l1 l2 : List ConvSpec) (sh : List Nat) :
    runConvTs (l1 ++ l2) sh = (runConvTs l1 sh).bind (runConvTs l2) := by
  induction l1 generalizing sh with
  | nil => simp [runConvTs]
  | cons c l ih =>
    simp only [List.cons_append, runConvTs]
    cases applyConvT1d c sh with
    | none => simp
    | some sh2 => simp [ih]

theorem runConvTs_decList (t : Nat) :
    ∀ b l, 1 ≤ l →
      runConvTs (decList t) [b, depth * 2 ^ t, l] =
        some [b, depth, l * 2 ^ t] := by
  induction t with
  | zero =>
    intro b l _
    simp [decList, runConvTs]
  | succ t ih =>
    intro b l hl
    rw [decList_succ]
    have hcond : 1 ≤ l ∧ 2 * pad + 1 ≤ (l - 1) * stride + filt_size := by
      simp only [pad, stride, filt_size]
      omega
    have hout : (l - 1) * stride + filt_size - 2 * pad = 2 * l := by
      simp only [pad, stride, filt_size]
      omega
    simp only [runConvTs, decStage, applyConvT1d, Nat.add_sub_cancel]
    rw [if_pos (And.intro trivial hcond), hout, Option.some_bind]
    have hstep := ih b (2 * l) (by omega)
    rw [hstep]
    have e1 : 2 * l * 2 ^ t = l * 2 ^ (t + 1) := by
      rw [Nat.pow_succ]
      ring
    rw [e1]

theorem VAE1D.decodeShape_eq (n nCh nL b : Nat) (h : 3 ≤ n) :
    VAE1D.decodeShape ⟨2 ^ n, nCh, nL, n⟩ [b, nL, 1] =
      some [b, nCh, 2 ^ n] := by
  have hcond1 : (1 : Nat) ≤ 1 ∧ 2 * 0 + 1 ≤ (1 - 1) * 1 + filt_size := by
    simp [filt_size]
  have hout1 : (1 - 1) * 1 + filt_size - 2 * 0 = 4 := by simp [filt_size]
  simp only [VAE1D.decodeShape, VAE1D.decoderConvs, runConvTs, applyConvT1d,
    VAE1D.max_depth]
  rw [if_pos (And.intro trivial hcond1), hout1, Option.some_bind,
    runConvTs_append]
  have hfold := runConvTs_decList (n - 3) b 4 (by norm_num)
  rw [hfold, Option.some_bind]
  have hcond2 : 1 ≤ 4 * 2 ^ (n - 3) ∧
      2 * pad + 1 ≤ (4 * 2 ^ (n - 3) - 1) * stride + filt_size := by
    have : 0 < 2 ^ (n - 3) := Nat.pos_pow_of_pos _ (by norm_num)
    simp only [pad, stride, filt_size]
    omega
  have hout2 : (4 * 2 ^ (n - 3) - 1) * stride + filt_size - 2 * pad =
      2 ^ n := by
    have hp : 0 < 2 ^ (n - 3) := Nat.pos_pow_of_pos _ (by norm_num)
    have hn : 2 ^ n = 8 * 2 ^ (n - 3) := by
      have : n = 3 + (n - 3) := by omega
      rw [this, pow_add]
      norm_num
    simp only [pad, stride, filt_size]
    omega
  simp only [runConvTs, applyConvT1d]
  rw [if_pos (And.intro trivial hcond2), hout2, Option.some_bind]

/-! ### Claim C1 -/

/-- Claim C1, amended. For every `size = 2 ^ n` with `n ≥ 3`, `VAE1D`
construction succeeds, and on any batch the encoder pyramid's output has
spatial size exactly 4 (not 1) before the latent heads; the heads
`conv_mu` / `conv_logvar` (kernel 4, stride 1, no padding) then produce
spatial size exactly 1. For every `size` that is not a power of two, or
is smaller than 8, construction fails. -/
theorem c1_construction_and_geometry :
    (∀ n nCh nL b, 3 ≤ n →
      VAE1D.init (2 ^ n) nCh nL = some ⟨2 ^ n, nCh, nL, n⟩ ∧
      VAE1D.encoderSpatial ⟨2 ^ n, nCh, nL, n⟩ b = some 4 ∧
      VAE1D.muShape ⟨2 ^ n, nCh, nL, n⟩ b = some [b, nL, 1]) ∧
    (∀ size nCh nL, ((¬ ∃ k, size = 2 ^ k) ∨ size < 8) →
      VAE1D.init size nCh nL = none) := by
  constructor
  · intro n nCh nL b h
    refine ⟨VAE1D.init_pow n nCh nL h, ?_, VAE1D.muShape_eq n nCh nL b h⟩
    rw [VAE1D.encoderSpatial, VAE1D.encoderShape_eq n nCh nL b h]
    rfl
  · intro size nCh nL h
    exact VAE1D.init_fail size nCh nL h

/-- Witness for C1: at `size = 16 = 2 ^ 4` construction succeeds with the
stated geometry, and at `size = 6` (< 8) construction fails. -/
theorem c1_construction_and_geometry_witness :
    (VAE1D.init 16 2 5 = some ⟨16, 2, 5, 4⟩ ∧
      VAE1D.encoderSpatial ⟨16, 2, 5, 4⟩ 7 = some 4 ∧
      VAE1D.muShape ⟨16, 2, 5, 4⟩ 7 = some [7, 5, 1]) ∧
    VAE1D.init 6 1 100 = none := by
  constructor
  · have h := c1_construction_and_geometry.1 4 2 5 7 (by norm_num)
    norm_num at h
    exact h
  · exact c1_construction_and_geometry.2 6 1 100 (Or.inr (by norm_num))

/-- Counterexample to C1 as stated: at `size = 8` the model is built, but
the encoder output's spatial size before `conv_mu` / `conv_logvar` is 4,
not 1. -/
theorem c1_counterexample :
    VAE1D.init 8 1 100 = some ⟨8, 1, 100, 3⟩ ∧
    VAE1D.encoderSpatial ⟨8, 1, 100, 3⟩ 1 = some 4 ∧
    some 4 ≠ some (1 : Nat) := by
  refine ⟨by decide, by decide, by decide⟩

/-! ### Claim C3 -/

/-- Claim C3. For every model successfully constructed from
`(size, n_channels, n_latent)` and every batch size `b`, the composition
`decode(generate(encode(x)))` on inputs of shape
`[b, n_channels, size]` yields outputs of exactly the input shape
`[b, n_channels, size]`. -/
theorem c3_roundtrip_shape (size nCh nL b : Nat) (m : VAE1D)
    (h : VAE1D.init size nCh nL = some m) :
    VAE1D.roundtripShape m b = some [b, nCh, size] := by
  have hm : ∃ n, 3 ≤ n ∧ size = 2 ^ n ∧ m = ⟨size, nCh, nL, n⟩ := by
    cases hE : log2Exact size with
    | none => rw [VAE1D.init, hE] at h; exact absurd h (by simp)
    | some k =>
      rw [VAE1D.init, hE] at h
      simp only at h
      by_cases hk : 3 ≤ k
      · rw [if_pos hk] at h
        exact ⟨k, hk, log2Exact_sound hE, by
          injection h with h2
          exact h2.symm⟩
      · rw [if_neg hk] at h
        exact absurd h (by simp)
  obtain ⟨n, hn, hsz, hmEq⟩ := hm
  subst hsz
  subst hmEq
  rw [VAE1D.roundtripShape, VAE1D.encodeShape,
    VAE1D.muShape_eq n nCh nL b hn, VAE1D.logvarShape_eq n nCh nL b hn,
    Option.some_bind, Option.map_some', Option.some_bind]
  have hgen : generateShape [b, nL, 1] [b, nL, 1] = some [b, nL, 1] := by
    simp [generateShape]
  rw [hgen, Option.some_bind]
  exact VAE1D.decodeShape_eq n nCh nL b hn

/-- Witness for C3: the model built from `(size, n_channels, n_latent)
= (8, 1, 100)` maps batches of shape `[2, 1, 8]` back to `[2, 1, 8]`. -/
theorem c3_roundtrip_shape_witness :
    VAE1D.roundtripShape ⟨8, 1, 100, 3⟩ 2 = some [2, 1, 8] :=
  c3_roundtrip_shape 8 1 100 2 ⟨8, 1, 100, 3⟩ (by decide)

/-! ### Helper lemmas: list indexing -/

theorem zipWithGetD {α β γ : Type} (f : α → β → γ) (da : α) (db : β) (dc : γ) :
    ∀ (a : List α) (b : List β) (i : Nat), i < a.length → i < b.length →
      (List.zipWith f a b).getD i dc = f (a.getD i da) (b.getD i db) := by
  intro a
  induction a with
  | nil => intro b i ha _; simp at ha
  | cons x xs ih =>
    intro b i ha hb
    cases b with
    | nil => simp at hb
    | cons y ys =>
      cases i with
      | zero => simp
      | succ j =>
        simp only [List.zipWith_cons_cons, List.getD_cons_succ]
        exact ih ys j (by simpa using ha) (by simpa using hb)

theorem mapGetD {α β : Type} (f : α → β) (da : α) (db : β) :
    ∀ (l : List α) (i : Nat), i < l.length →
      (l.map f).getD i db = f (l.getD i da) := by
  intro l
  induction l with
  | nil => intro i hi; simp at hi
  | cons x xs ih =>
    intro i hi
    cases i with
    | zero => simp
    | succ j =>
      simp only [List.map_cons, List.getD_cons_succ]
      exact ih j (by simpa using hi)

/-! ### Claim C2 -/

/-- Claim C2 (code-bug evidence). `VAE1D.forward` never returns the triple
`(reconstruction, mu, logvar)`: its body reads the undefined name `trans`
(its parameter is `imgs`), so every call raises `NameError`. -/
theorem c2_forward_name_error (m : VAE1D) (imgs : List (List (List ℝ))) :
    VAE1D.forward m imgs =
      Except.error "NameError: name trans is not defined" ∧
    ¬ ∃ out, VAE1D.forward m imgs = Except.ok out := by
  refine ⟨rfl, ?_⟩
  rintro ⟨out, hout⟩
  simp [VAE1D.forward] at hout

/-! ### Claim C4 -/

theorem genErrRow_eq_reconSpec (t g : List (List ℝ)) :
    genErrRow t g = reconSpec t g := by
  simp only [genErrRow, reconSpec, List.sum_flatten, List.map_map]
  rfl

theorem klRow_eq_klSpec (mu logvar : List ℝ) :
    klRow mu logvar = klSpec mu logvar := by
  simp only [klRow, klSpec]
  have hfun : (fun p : ℝ × ℝ => (-p.2 + Real.exp p.2 + p.1 ^ 2 - 1) * (0.5 : ℝ)) =
      (fun p : ℝ × ℝ => (0.5 : ℝ) * (Real.exp p.2 + p.1 ^ 2 - p.2 - 1)) := by
    funext p
    ring
  rw [hfun]

/-- Claim C4. For every batch position `i`, the per-sample loss returned
by `VAE1DLoss.forward` equals `reconstruction_term + beta * KL_term`,
where the reconstruction term is half the sum of squared per-element
differences over all non-batch dimensions and the KL term is
`sum(0.5 * (exp(logvar) + mu^2 - logvar - 1))` over latent dimensions,
exactly as the specification words them. -/
theorem c4_loss_decomposition (beta : ℝ) (genT transT : List (List (List ℝ)))
    (mu logvar : List (List ℝ)) (i : Nat)
    (h1 : i < transT.length) (h2 : i < genT.length)
    (h3 : i < mu.length) (h4 : i < logvar.length) :
    (lossVec beta genT transT mu logvar).getD i 0 =
      reconSpec (transT.getD i []) (genT.getD i []) +
        beta * klSpec (mu.getD i []) (logvar.getD i []) := by
  simp only [lossVec]
  rw [zipWithGetD _ 0 0 0 _ _ i
      (by simp only [List.length_zipWith]; omega)
      (by simp only [List.length_zipWith]; omega),
    zipWithGetD genErrRow [] [] 0 _ _ i h1 h2,
    zipWithGetD klRow [] [] 0 _ _ i h3 h4,
    genErrRow_eq_reconSpec, klRow_eq_klSpec]

/-- Witness for C4, at `beta = 2`, a one-sample batch with one channel of
two elements, and a one-dimensional latent space. -/
theorem c4_loss_decomposition_witness :
    (lossVec 2 [[[0, 0]]] [[[1, 2]]] [[1]] [[0]]).getD 0 0 =
      reconSpec ([[[(1 : ℝ), 2]]].getD 0 []) ([[[(0 : ℝ), 0]]].getD 0 []) +
        2 * klSpec ([[(1 : ℝ)]].getD 0 []) ([[(0 : ℝ)]].getD 0 []) :=
  c4_loss_decomposition 2 [[[0, 0]]] [[[1, 2]]] [[1]] [[0]] 0
    (by simp) (by simp) (by simp) (by simp)

/-! ### Claim C5 -/

/-- Claim C5. With the `torch.randn_like` draw modelled by `eps` (same
shape as `std`, hence as `logvar`), `VAE1D.generate(mu, logvar)` returns
exactly `eps * std + mu` elementwise with `std = exp(0.5 * logvar)`, and
its shape matches `logvar`'s. -/
theorem c5_generate_reparam (mu logvar eps : List ℝ)
    (hm : mu.length = logvar.length) (he : eps.length = logvar.length) :
    (VAE1D.generate mu logvar eps).length = logvar.length ∧
    ∀ i, i < logvar.length →
      (VAE1D.generate mu logvar eps).getD i 0 =
        eps.getD i 0 * Real.exp ((0.5 : ℝ) * logvar.getD i 0) +
          mu.getD i 0 := by
  constructor
  · simp only [VAE1D.generate, List.length_zipWith, List.length_map]
    omega
  · intro i hi
    simp only [VAE1D.generate]
    rw [zipWithGetD _ 0 0 0 _ _ i
        (by simp only [List.length_zipWith, List.length_map]; omega)
        (by omega),
      zipWithGetD _ 0 0 0 _ _ i (by omega)
        (by simp only [List.length_map]; omega),
      mapGetD _ 0 0 _ i hi]

/-- Witness for C5 at `mu = [1]`, `logvar = [0]`, `eps = [2]`. -/
theorem c5_generate_reparam_witness :
    (VAE1D.generate [1] [0] [2]).length = [(0 : ℝ)].length ∧
    ∀ i, i < [(0 : ℝ)].length →
      (VAE1D.generate [1] [0] [2]).getD i 0 =
        [(2 : ℝ)].getD i 0 *
            Real.exp ((0.5 : ℝ) * [(0 : ℝ)].getD i 0) +
          [(1 : ℝ)].getD i 0 :=
  c5_generate_reparam [1] [0] [2] (by decide) (by decide)

/-! ### Claim C6 -/

theorem klTerm_nonneg (m v : ℝ) :
    0 ≤ (-v + Real.exp v + m ^ 2 - 1) * (0.5 : ℝ) := by
  nlinarith [Real.add_one_le_exp v, sq_nonneg m]

theorem klTerm_pos (m v : ℝ) (h : m ≠ 0 ∨ v ≠ 0) :
    0 < (-v + Real.exp v + m ^ 2 - 1) * (0.5 : ℝ) := by
  rcases h with hm | hv
  · have h2 : 0 < m ^ 2 := by positivity
    nlinarith [Real.add_one_le_exp v]
  · have h2 : v + 1 < Real.exp v := Real.add_one_lt_exp hv
    nlinarith [sq_nonneg m]

/-- Claim C6. The per-sample KL term computed by the loss is zero when
every latent dimension has `mu = 0` and `logvar = 0`, and strictly
positive as soon as some dimension has `mu ≠ 0` or `logvar ≠ 0`. -/
theorem c6_kl_zero_iff (mu logvar : List ℝ)
    (hlen : mu.length = logvar.length) :
    ((∀ x ∈ mu, x = 0) → (∀ x ∈ logvar, x = 0) → klRow mu logvar = 0) ∧
    (∀ p ∈ mu.zip logvar, (p.1 ≠ 0 ∨ p.2 ≠ 0) → 0 < klRow mu logvar) := by
  constructor
  · intro hmu hlv
    apply List.sum_eq_zero
    intro x hx
    simp only [List.mem_map] at hx
    obtain ⟨⟨p1, p2⟩, hp, rfl⟩ := hx
    obtain ⟨hp1, hp2⟩ := List.of_mem_zip hp
    rw [hmu p1 hp1, hlv p2 hp2]
    simp [Real.exp_zero]
  · intro p hp hne
    have hnn : ∀ y ∈ (mu.zip logvar).map
        (fun p => (-p.2 + Real.exp p.2 + p.1 ^ 2 - 1) * (0.5 : ℝ)), 0 ≤ y := by
      intro y hy
      simp only [List.mem_map] at hy
      obtain ⟨q, _, rfl⟩ := hy
      exact klTerm_nonneg q.1 q.2
    have hmem : (-p.2 + Real.exp p.2 + p.1 ^ 2 - 1) * (0.5 : ℝ) ∈
        (mu.zip logvar).map
          (fun p => (-p.2 + Real.exp p.2 + p.1 ^ 2 - 1) * (0.5 : ℝ)) :=
      List.mem_map_of_mem _ hp
    have hle := List.single_le_sum hnn _ hmem
    have hpos := klTerm_pos p.1 p.2 hne
    calc (0 : ℝ) < (-p.2 + Real.exp p.2 + p.1 ^ 2 - 1) * (0.5 : ℝ) := hpos
    _ ≤ klRow mu logvar := hle

/-- Witness for C6: the KL term vanishes at `mu = [0]`, `logvar = [0]`
and is strictly positive at `mu = [1]`, `logvar = [0]`. -/
theorem c6_kl_zero_iff_witness :
    klRow [0] [0] = 0 ∧ 0 < klRow [1] [0] := by
  constructor
  · exact (c6_kl_zero_iff [0] [0] rfl).1 (by simp) (by simp)
  · exact (c6_kl_zero_iff [1] [0] rfl).2 (1, 0) (by simp)
      (Or.inl one_ne_zero)

/-! ### Claim C7 -/

/-- Claim C7 (code-bug evidence). On a dataset over a directory with one
class `a` containing two sample files, `__getitem__(0)` raises
`TypeError`: `self.targets[0]` is the whole per-class label list, and it
is then used to subscript `self.classes`. No `(normalized_sample,
class_index)` pair is ever produced. -/
theorem c7_getitem_type_error
    (load : String → Except String (List (List ℝ))) :
    TransientDataset.getItem
        (TransientDataset.init "root" demoListdir [((0 : ℝ), 2)]) load 0 =
      Except.error
        "TypeError: list indices must be integers or slices, not list" := by
  rfl

/-! ### Claim C8 -/

/-- Claim C8 (code-bug evidence). Over a directory with one class holding
two sample files, `__len__` returns 1 — the number of class directories —
whereas the total number of indexed samples is 2. -/
theorem c8_len_counts_classes :
    TransientDataset.len
        (TransientDataset.init "root" demoListdir [((0 : ℝ), 2)]) = 1 ∧
    ((TransientDataset.init "root" demoListdir
        [((0 : ℝ), 2)]).names.map List.length).sum = 2 ∧
    (1 : Nat) ≠ 2 := by
  refine ⟨rfl, rfl, by decide⟩

/-! ### Claim C9 -/

/-- Claim C9 (code-bug evidence). `TransientDataset.index` reads the
unbound local `index` before any lookup, so for every dataset and every
name — with or without the `.npy` extension, present or absent — it
raises `UnboundLocalError` instead of returning a position or a
not-found error. -/
theorem c9_index_always_raises (d : TransientDataset) (s : String) :
    TransientDataset.index d s =
      Except.error
        "UnboundLocalError: local variable index referenced before assignment" ∧
    ¬ ∃ i, TransientDataset.index d s = Except.ok i := by
  refine ⟨rfl, ?_⟩
  rintro ⟨i, hi⟩
  simp [TransientDataset.index] at hi

/-! ### Claim C10 -/

theorem getD_append_one_lt (cells : List Tensor) (t : Tensor) (r : Nat)
    (hr : r < cells.length) :
    (cells ++ [t]).getD r [] = cells.getD r [] := by
  rw [List.getD_eq_getElem?_getD, List.getD_eq_getElem?_getD,
    List.getElem?_append_left hr]

theorem getD_set_ne_read (cells : List Tensor) (i r : Nat) (t : Tensor)
    (hne : i ≠ r) :
    (cells.set i t).getD r [] = cells.getD r [] := by
  rw [List.getD_eq_getElem?_getD, List.getD_eq_getElem?_getD,
    List.getElem?_set_ne hne]

theorem getD_append_one_self (cells : List Tensor) (t : Tensor) :
    (cells ++ [t]).getD cells.length [] = t := by
  rw [List.getD_eq_getElem?_getD, List.getElem?_concat_length]
  rfl

/-- Claim C10, amended. `generate` leaves the caller's `mu` and `logvar`
tensors unchanged, and also leaves the freshly drawn noise tensor
unchanged: its single in-place mutation (`add_`) targets the fresh
product tensor allocated by `gen.mul(std)`, which is distinct from `mu`,
`logvar` and the noise tensor; hence `(mu, logvar)` can be reused after
sampling. -/
theorem c10_generate_frame (h : Heap) (muR lvR : Nat) (eps : Tensor)
    (hmu : muR < h.cells.length) (hlv : lvR < h.cells.length) :
    ((VAE1D.generateEffect h muR lvR eps).heap.read muR = h.read muR) ∧
    ((VAE1D.generateEffect h muR lvR eps).heap.read lvR = h.read lvR) ∧
    ((VAE1D.generateEffect h muR lvR eps).heap.read
        (VAE1D.generateEffect h muR lvR eps).noise = eps) ∧
    ((VAE1D.generateEffect h muR lvR eps).muts = [h.cells.length + 3]) ∧
    ((VAE1D.generateEffect h muR lvR eps).noise = h.cells.length + 2) ∧
    h.cells.length + 3 ≠ muR ∧ h.cells.length + 3 ≠ lvR ∧
    h.cells.length + 3 ≠ h.cells.length + 2 := by
  simp only [VAE1D.generateEffect, Heap.alloc, Heap.read, Heap.write,
    List.length_append, List.length_cons, List.length_nil]
  refine ⟨?_, ?_, ?_, ?_, ?_, by omega, by omega, by omega⟩
  · rw [getD_set_ne_read _ _ _ _ (by omega)]
    rw [getD_append_one_lt _ _ _
        (by simp only [List.length_append, List.length_cons,
          List.length_nil]; omega),
      getD_append_one_lt _ _ _
        (by simp only [List.length_append, List.length_cons,
          List.length_nil]; omega),
      getD_append_one_lt _ _ _
        (by simp only [List.length_append, List.length_cons,
          List.length_nil]; omega),
      getD_append_one_lt _ _ _ (by omega)]
  · rw [getD_set_ne_read _ _ _ _ (by omega)]
    rw [getD_append_one_lt _ _ _
        (by simp only [List.length_append, List.length_cons,
          List.length_nil]; omega),
      getD_append_one_lt _ _ _
        (by simp only [List.length_append, List.length_cons,
          List.length_nil]; omega),
      getD_append_one_lt _ _ _
        (by simp only [List.length_append, List.length_cons,
          List.length_nil]; omega),
      getD_append_one_lt _ _ _ (by omega)]
  · rw [getD_set_ne_read _ _ _ _ (by omega)]
    rw [getD_append_one_lt _ _ _
        (by simp only [List.length_append, List.length_cons,
          List.length_nil]; omega)]
    have : ((h.cells ++ [(h.cells.getD lvR []).map fun v => (0.5 : ℝ) * v]) ++
        [((h.cells ++ [(h.cells.getD lvR []).map fun v => (0.5 : ℝ) * v]).getD
            h.cells.length []).map Real.exp]).length =
        h.cells.length + 1 + 1 := by simp
    rw [← this, getD_append_one_self]
  · trivial
  · simp

/-- Witness for C10 on the concrete heap `[[1], [0]]` with `mu` at
reference 0, `logvar` at reference 1, and noise draw `[2]`. -/
theorem c10_generate_frame_witness :
    ((VAE1D.generateEffect ⟨[[(1 : ℝ)], [0]]⟩ 0 1 [2]).heap.read 0 =
        Heap.read ⟨[[(1 : ℝ)], [0]]⟩ 0) ∧
    ((VAE1D.generateEffect ⟨[[(1 : ℝ)], [0]]⟩ 0 1 [2]).heap.read 1 =
        Heap.read ⟨[[(1 : ℝ)], [0]]⟩ 1) ∧
    ((VAE1D.generateEffect ⟨[[(1 : ℝ)], [0]]⟩ 0 1 [2]).heap.read
        (VAE1D.generateEffect ⟨[[(1 : ℝ)], [0]]⟩ 0 1 [2]).noise = [2]) ∧
    ((VAE1D.generateEffect ⟨[[(1 : ℝ)], [0]]⟩ 0 1 [2]).muts = [5]) ∧
    ((VAE1D.generateEffect ⟨[[(1 : ℝ)], [0]]⟩ 0 1 [2]).noise = 4) ∧
    (5 : Nat) ≠ 0 ∧ (5 : Nat) ≠ 1 ∧ (5 : Nat) ≠ 4 :=
  c10_generate_frame ⟨[[(1 : ℝ)], [0]]⟩ 0 1 [2] (by decide) (by decide)

/-- Counterexample to C10 as stated: in the run on the concrete heap
`[[1], [0]]`, the single in-place mutation targets reference 5 (the fresh
product tensor `gen.mul(std)`), which is not the reference 4 of the
freshly drawn noise tensor. -/
theorem c10_counterexample :
    (VAE1D.generateEffect ⟨[[(1 : ℝ)], [0]]⟩ 0 1 [2]).muts = [5] ∧
    (VAE1D.generateEffect ⟨[[(1 : ℝ)], [0]]⟩ 0 1 [2]).noise = 4 ∧
    (VAE1D.generateEffect ⟨[[(1 : ℝ)], [0]]⟩ 0 1 [2]).muts ≠
      [(VAE1D.generateEffect ⟨[[(1 : ℝ)], [0]]⟩ 0 1 [2]).noise] := by
  refine ⟨rfl, rfl, by decide⟩
